import Mathlib

set_option autoImplicit false

namespace BitwardenLookup

/-! Shallow embedding of `lookup_plugins/bitwarden.py`.

The plugin shells out to the external `bw` CLI, decodes its JSON output and
resolves vault items, fields and attachments.  The external world (the `bw`
process and the `json.loads` decoder) is modelled as an oracle `Cli`; the
plugin code itself is translated function by function.  Python exceptions
are modelled with `Except PyError`; `AnsibleError` is the only kind the
plugin ever catches, so the other Python exception kinds (`KeyError`,
`TypeError`, ...) always propagate. -/

/-- JSON values as decoded by `json.loads`. -/
inductive Json where
  | null : Json
  | bool (b : Bool) : Json
  | num (n : Int) : Json
  | str (s : String) : Json
  | arr (xs : List Json) : Json
  | obj (kvs : List (String × Json)) : Json

mutual
/-- Python structural equality `==` on decoded JSON values. -/
def Json.beq : Json → Json → Bool
  | .null, .null => true
  | .bool x, .bool y => x == y
  | .num x, .num y => x == y
  | .str x, .str y => x == y
  | .arr xs, .arr ys => Json.beqList xs ys
  | .obj xs, .obj ys => Json.beqObj xs ys
  | _, _ => false
def Json.beqList : List Json → List Json → Bool
  | [], [] => true
  | x :: xs, y :: ys => Json.beq x y && Json.beqList xs ys
  | _, _ => false
def Json.beqObj : List (String × Json) → List (String × Json) → Bool
  | [], [] => true
  | (k1, v1) :: xs, (k2, v2) :: ys => k1 == k2 && Json.beq v1 v2 && Json.beqObj xs ys
  | _, _ => false
end

/-! Python string primitives, modelled over character lists so that every
definition is structurally recursive and evaluates inside the kernel. -/

/-- The whitespace characters stripped by Python `str.strip()` (ASCII part). -/
def pyWhitespace (c : Char) : Bool :=
  c = ' ' || c = '\t' || c = '\n' || c = '\x0d' || c = '\x0b' || c = '\x0c'

def stripList (l : List Char) : List Char :=
  ((l.dropWhile pyWhitespace).reverse.dropWhile pyWhitespace).reverse

/-- Python `str.strip()`. -/
def pyStrip (s : String) : String := ⟨stripList s.data⟩

def splitCharAux (sep : Char) : List Char → List (List Char)
  | [] => [[]]
  | c :: rest =>
    let r := splitCharAux sep rest
    if c = sep then [] :: r
    else
      match r with
      | h :: t => (c :: h) :: t
      | [] => [[c]]

/-- Python `str.split(sep)` for a one-character separator: `"a..b".split(".")`
gives `["a", "", "b"]` and `"".split(".")` gives `[""]`. -/
def pySplit (sep : Char) (s : String) : List String :=
  (splitCharAux sep s.data).map (fun l => (⟨l⟩ : String))

def isPrefixList : List Char → List Char → Bool
  | [], _ => true
  | _ :: _, [] => false
  | c :: cs, d :: ds => c == d && isPrefixList cs ds

/-- Python `str.startswith(pre)`. -/
def pyStartsWith (s pre : String) : Bool := isPrefixList pre.data s.data

/-- Python `str.endswith(suf)`. -/
def pyEndsWith (s suf : String) : Bool := isPrefixList suf.data.reverse s.data.reverse

def containsList (needle : List Char) : List Char → Bool
  | [] => needle.isEmpty
  | c :: rest => isPrefixList needle (c :: rest) || containsList needle rest

/-- Python substring test `needle in hay`. -/
def strContains (hay needle : String) : Bool := containsList needle.data hay.data

/-- One fuel unit is spent per character of the subject, so fuel equal to the
length of the subject list suffices; `replaceFuel` consumes `pat.length`
characters whenever it rewrites an occurrence (`1 + (pat.length - 1)`). -/
def replaceFuel (pat rep : List Char) : Nat → List Char → List Char
  | 0, l => l
  | _ + 1, [] => []
  | n + 1, c :: rest =>
    if !pat.isEmpty && isPrefixList pat (c :: rest) then
      rep ++ replaceFuel pat rep n (rest.drop (pat.length - 1))
    else c :: replaceFuel pat rep n rest

/-- Python `str.replace(pat, rep)` (all occurrences, left to right). -/
def pyReplace (s pat rep : String) : String :=
  ⟨replaceFuel pat.data rep.data s.data.length s.data⟩

def isHexChar (c : Char) : Bool :=
  c.isDigit || ('a' ≤ c && c ≤ 'f') || ('A' ≤ c && c ≤ 'F')

def hexRun : List Char → Bool
  | [] => true
  | '_' :: [] => false
  | '_' :: d :: rest => isHexChar d && hexRun rest
  | c :: rest => isHexChar c && hexRun rest

/-- A nonempty run of hex digits with optional single underscores between
digits, as accepted by Python `int(s, 16)`. -/
def hexBody : List Char → Bool
  | [] => false
  | c :: rest => isHexChar c && hexRun rest

def hexTail : List Char → Bool
  | '_' :: rest => hexBody rest
  | l => hexBody l

/-- Whether Python `int(s, 16)` accepts the string: optional surrounding
whitespace, optional sign, optional `0x` prefix, then underscored hex digits. -/
def intBase16Ok (l : List Char) : Bool :=
  let l1 := stripList l
  let l2 :=
    match l1 with
    | '+' :: rest => rest
    | '-' :: rest => rest
    | l1 => l1
  match l2 with
  | '0' :: 'x' :: rest => hexTail rest
  | '0' :: 'X' :: rest => hexTail rest
  | l2 => hexBody l2

def isBraceChar (c : Char) : Bool := c = '\x7b' || c = '\x7d'

/-! The Python exception kinds the plugin can raise.  `ansible` is
`AnsibleError`, the only kind the plugin catches; the rest model built-in
Python exceptions that always propagate through the plugin. -/

inductive PyError where
  | ansible (msg : String)
  | keyError (key : String)
  | typeError
  | indexError
  | jsonDecode
deriving DecidableEq

/-- Oracle for the external world: `versionOk` is whether `bw --version`
succeeds in the constructor, `run sess args` is the exit code and combined
output of one `bw` invocation with `BW_SESSION = sess` (empty string when no
session was installed), and `jloads` is the `json.loads` decoder. -/
structure Cli where
  versionOk : Bool
  run : String → List String → Int × String
  jloads : String → Option Json

/-- The mutable state of one `Bitwarden` client object: the session string
and the memoized organization/collection identifiers. -/
structure BwClient where
  session : String
  collectionId : Option Json
  organizationId : Option Json

def freshClient : BwClient := { session := "", collectionId := none, organizationId := none }

namespace Bitwarden

def vaultLockedMsg : String :=
  "Error accessing Bitwarden vault. Run \x27bw unlock\x27 to unlock the vault."

def notLoggedInMsg : String :=
  "Error accessing Bitwarden vault. Run \x27bw login\x27 to login."

def sessionInvalidMsg : String :=
  "Error accessing Bitwarden vault. Make sure BW_SESSION is set properly."

def cliNotFoundMsg (arg : String) : String :=
  "Error accessing Bitwarden vault. Specified item not found: " ++ arg

def unknownCliMsg (out : String) : String :=
  "Unknown failure in \x27bw\x27 command: " ++ out

/-- Python `args[-1]`; every `_run` caller passes a nonempty list. -/
def lastArg : List String → String
  | [] => ""
  | [a] => a
  | _ :: b :: rest => lastArg (b :: rest)

/-- Embedding of `Bitwarden._run`: invoke the CLI, and on a nonzero exit code
classify the failure by matching well-known output prefixes in order; on exit
code zero return the stripped output. -/
def _run (cli : Cli) (sess : String) (args : List String) : Except PyError String :=
  let r := cli.run sess args
  if r.1 ≠ 0 then
    if pyStartsWith r.2 "Vault is locked." then .error (.ansible vaultLockedMsg)
    else if pyStartsWith r.2 "You are not logged in." then .error (.ansible notLoggedInMsg)
    else if pyStartsWith r.2 "Failed to decrypt." then .error (.ansible sessionInvalidMsg)
    else if pyStartsWith r.2 "Not found." then .error (.ansible (cliNotFoundMsg (lastArg args)))
    else .error (.ansible (unknownCliMsg r.2))
  else .ok (pyStrip r.2)

end Bitwarden

/-- C6: on nonzero exit the `_run` failure is classified by matching the
output prefix in order — "Vault is locked." gives the vault-locked error,
"You are not logged in." the not-logged-in error, "Failed to decrypt." the
invalid-session error, "Not found." the item-not-found error carrying the
last CLI argument, anything else the unknown-CLI error carrying the raw
output; on exit code zero the trimmed output is returned. -/
theorem c6_run_error_classification (cli : Cli) (sess : String) (args : List String)
    (rc : Int) (out : String) (h : cli.run sess args = (rc, out)) :
    (rc = 0 → Bitwarden._run cli sess args = .ok (pyStrip out)) ∧
    (rc ≠ 0 → pyStartsWith out "Vault is locked." = true →
      Bitwarden._run cli sess args = .error (.ansible Bitwarden.vaultLockedMsg)) ∧
    (rc ≠ 0 → pyStartsWith out "Vault is locked." = false →
      pyStartsWith out "You are not logged in." = true →
      Bitwarden._run cli sess args = .error (.ansible Bitwarden.notLoggedInMsg)) ∧
    (rc ≠ 0 → pyStartsWith out "Vault is locked." = false →
      pyStartsWith out "You are not logged in." = false →
      pyStartsWith out "Failed to decrypt." = true →
      Bitwarden._run cli sess args = .error (.ansible Bitwarden.sessionInvalidMsg)) ∧
    (rc ≠ 0 → pyStartsWith out "Vault is locked." = false →
      pyStartsWith out "You are not logged in." = false →
      pyStartsWith out "Failed to decrypt." = false →
      pyStartsWith out "Not found." = true →
      Bitwarden._run cli sess args = .error (.ansible (Bitwarden.cliNotFoundMsg (Bitwarden.lastArg args)))) ∧
    (rc ≠ 0 → pyStartsWith out "Vault is locked." = false →
      pyStartsWith out "You are not logged in." = false →
      pyStartsWith out "Failed to decrypt." = false →
      pyStartsWith out "Not found." = false →
      Bitwarden._run cli sess args = .error (.ansible (Bitwarden.unknownCliMsg out))) := by
  refine ⟨?_, ?_, ?_, ?_, ?_, ?_⟩ <;>
    intros <;> simp_all [Bitwarden._run]

def c6Cli : Cli :=
  { versionOk := true
    run := fun _ args => if args = ["get", "item", "boom"] then (1, "Not found. Try again.") else (0, " ok ")
    jloads := fun _ => none }

/-- Witness for C6 at a concrete world: a nonzero exit whose output starts
with "Not found." raises the item-not-found error carrying the last
argument. -/
theorem c6_run_error_classification_witness :
    Bitwarden._run c6Cli "" ["get", "item", "boom"] =
      .error (.ansible (Bitwarden.cliNotFoundMsg "boom")) := by
  have h := c6_run_error_classification c6Cli "" ["get", "item", "boom"] 1 "Not found. Try again." rfl
  exact h.2.2.2.2.1 (by decide) rfl rfl rfl rfl

/-! Python access primitives on decoded JSON values. -/

def objLookup (k : String) : List (String × Json) → Option Json
  | [] => none
  | (k2, v) :: rest => if k2 = k then some v else objLookup k rest

/-- Python `o[k]` for a string subscript: dict lookup with `KeyError` when the
key is missing, `TypeError` on any non-dict value. -/
def pyGetItem (o : Json) (k : String) : Except PyError Json :=
  match o with
  | .obj kvs =>
    match objLookup k kvs with
    | some v => .ok v
    | none => .error (.keyError k)
  | _ => .error .typeError

/-- Python `k in o` for a string `k`: key test on dicts, membership on lists,
substring test on strings, `TypeError` otherwise. -/
def pyContainsKey (o : Json) (k : String) : Except PyError Bool :=
  match o with
  | .obj kvs => .ok (objLookup k kvs).isSome
  | .arr xs => .ok (xs.any (fun x => Json.beq x (.str k)))
  | .str s => .ok (strContains s k)
  | _ => .error .typeError

/-- Python `x in container` for a decoded JSON container: equality scan on
lists, key test on dicts (unhashable `x` raises `TypeError`), substring test
on strings. -/
def pyMem (x : Json) (container : Json) : Except PyError Bool :=
  match container with
  | .arr xs => .ok (xs.any (fun e => Json.beq e x))
  | .obj kvs =>
    match x with
    | .str s => .ok (objLookup s kvs).isSome
    | .arr _ => .error .typeError
    | .obj _ => .error .typeError
    | _ => .ok false
  | .str s =>
    match x with
    | .str t => .ok (strContains s t)
    | _ => .error .typeError
  | _ => .error .typeError

/-- Python iteration over a decoded JSON value: lists yield their elements,
dicts yield their keys, strings yield their characters. -/
def pyIter (j : Json) : Except PyError (List Json) :=
  match j with
  | .arr xs => .ok xs
  | .obj kvs => .ok (kvs.map (fun p => Json.str p.1))
  | .str s => .ok (s.data.map (fun ch => Json.str (⟨[ch]⟩ : String)))
  | _ => .error .typeError

namespace Bitwarden

/-- Embedding of `Bitwarden.is_valid_uuid`: `uuid.UUID(value)` succeeds iff
after removing `urn:` and `uuid:`, stripping surrounding braces and removing
dashes, the remainder is 32 characters accepted by `int(_, 16)`. -/
def is_valid_uuid (value : String) : Bool :=
  let h1 := pyReplace (pyReplace value "urn:" "") "uuid:" ""
  let cs := ((h1.data.dropWhile isBraceChar).reverse.dropWhile isBraceChar).reverse
  let h2 := pyReplace (⟨cs⟩ : String) "-" ""
  h2.data.length == 32 && intBase16Ok h2.data

def noCollectionIdMsg (c : String) : String :=
  "no collectionId for \x27" ++ c ++ "\x27 found"

def noOrganizationIdMsg (o : String) : String :=
  "no organizationId for \x27" ++ o ++ "\x27 found"

/-- Shorthand for `json.loads(self._run(args))`; a decode failure raises
`json.decoder.JSONDecodeError`, which is not an `AnsibleError`. -/
def runLoads (cli : Cli) (sess : String) (args : List String) : Except PyError Json :=
  match _run cli sess args with
  | .error e => .error e
  | .ok out =>
    match cli.jloads out with
    | some j => .ok j
    | none => .error .jsonDecode

/-- The lazy pipeline `next(map(lambda c: c[\x27id\x27], filter(lambda c:
c[\x27name\x27]==collection, ...)), None)`: first decoded collection whose
name equals the requested one, projected to its id. -/
def firstCollId (c : String) : List Json → Except PyError (Option Json)
  | [] => .ok none
  | x :: rest =>
    match pyGetItem x "name" with
    | .error e => .error e
    | .ok n =>
      if Json.beq n (.str c) then
        match pyGetItem x "id" with
        | .error e => .error e
        | .ok i => .ok (some i)
      else firstCollId c rest

/-- The collection paragraph of `isInCollectionAndOranisation`: `None` clears
the memo, a memoized id is kept, a syntactically valid UUID is taken as the
id, otherwise the vault collection list is searched by display name. -/
def resolveCollectionId (cli : Cli) (st : BwClient) (collection : Option String) :
    Except PyError BwClient :=
  match collection with
  | none => .ok { st with collectionId := none }
  | some c =>
    if st.collectionId.isSome then .ok st
    else if is_valid_uuid c then .ok { st with collectionId := some (.str c) }
    else
      match runLoads cli st.session ["list", "collections", "--search", c] with
      | .error e => .error e
      | .ok j =>
        match pyIter j with
        | .error e => .error e
        | .ok l =>
          match firstCollId c l with
          | .error e => .error e
          | .ok (some i) => .ok { st with collectionId := some i }
          | .ok none => .error (.ansible (noCollectionIdMsg c))

/-- The organization paragraph of `isInCollectionAndOranisation`; only an
`AnsibleError` from the fetch is rewrapped, other exception kinds
propagate. -/
def resolveOrganizationId (cli : Cli) (st : BwClient) (organization : Option String) :
    Except PyError BwClient :=
  match organization with
  | none => .ok { st with organizationId := none }
  | some o =>
    if st.organizationId.isSome then .ok st
    else if is_valid_uuid o then .ok { st with organizationId := some (.str o) }
    else
      match runLoads cli st.session ["get", "organization", o] with
      | .ok j =>
        match pyGetItem j "id" with
        | .ok i => .ok { st with organizationId := some i }
        | .error (.ansible _) => .error (.ansible (noOrganizationIdMsg o))
        | .error e => .error e
      | .error (.ansible _) => .error (.ansible (noOrganizationIdMsg o))
      | .error e => .error e

/-- The return expression of `isInCollectionAndOranisation`, with Python
operator precedence and short-circuiting preserved: `A or (B and (C or D))`
where `A` is "no collection scope", `B` the collection membership test, `C`
"no organization scope" and `D` the organization equality. -/
def scopeReturn (cId oId : Option Json) (item : Json) : Except PyError Bool :=
  match cId with
  | none => .ok true
  | some cid =>
    match pyGetItem item "collectionIds" with
    | .error e => .error e
    | .ok colls =>
      match pyMem cid colls with
      | .error e => .error e
      | .ok false => .ok false
      | .ok true =>
        match oId with
        | none => .ok true
        | some oid =>
          match pyGetItem item "organizationId" with
          | .error e => .error e
          | .ok v => .ok (Json.beq v oid)

/-- Embedding of `Bitwarden.isInCollectionAndOranisation`.  The memo fields
mutate even when an exception is raised afterwards, so the updated client is
returned alongside the outcome. -/
def isInCollectionAndOranisation (cli : Cli) (st : BwClient) (item : Json)
    (organization collection : Option String) : Except PyError Bool × BwClient :=
  match resolveCollectionId cli st collection with
  | .error e => (.error e, st)
  | .ok st1 =>
    match resolveOrganizationId cli st1 organization with
    | .error e => (.error e, st1)
    | .ok st2 => (scopeReturn st2.collectionId st2.organizationId item, st2)

end Bitwarden

/-- C9: the scope-membership check with both references equal to `None`
returns true for every item, every client state and every world. -/
theorem c9_noop_scope (cli : Cli) (st : BwClient) (item : Json) :
    (Bitwarden.isInCollectionAndOranisation cli st item none none).1 = .ok true := by
  simp [Bitwarden.isInCollectionAndOranisation, Bitwarden.resolveCollectionId,
    Bitwarden.resolveOrganizationId, Bitwarden.scopeReturn]

/-- Witness for C9 at a concrete world, state and item. -/
theorem c9_noop_scope_witness :
    (Bitwarden.isInCollectionAndOranisation
      ⟨true, fun _ _ => (1, ""), fun _ => none⟩ ⟨"", none, none⟩ Json.null none none).1 =
      .ok true :=
  c9_noop_scope ⟨true, fun _ _ => (1, ""), fun _ => none⟩ ⟨"", none, none⟩ Json.null

/-- Modelled from the spec: `matchesScope(item, orgId, collId)` is true iff
(collId is None OR collId ∈ item.collectionIds) AND (orgId is None OR
orgId == item.organizationId). -/
def specMatchesScope (item : Json) (oId cId : Option Json) : Except PyError Bool := do
  let collOk ←
    match cId with
    | none => pure true
    | some cid => do
        let colls ← pyGetItem item "collectionIds"
        pyMem cid colls
  let orgOk ←
    match oId with
    | none => pure true
    | some oid => do
        let v ← pyGetItem item "organizationId"
        pure (Json.beq v oid)
  pure (collOk && orgOk)

def constCli : Cli :=
  { versionOk := true
    run := fun _ _ => (1, "")
    jloads := fun _ => none }

def c1Uuid : String := "11111111-1111-1111-1111-111111111111"

def c1Item : Json := .obj [("organizationId", .str "other-org"), ("collectionIds", .arr [])]

/-- C1 (code bug): at a concrete item whose organizationId differs from the
active organization scope and with no collection scope, the plugin check
returns True — Python parses the return expression `A or B and C` as
`A or (B and C)` — while the specified top-level conjunction is False. -/
theorem c1_scope_check_precedence_bug :
    (Bitwarden.isInCollectionAndOranisation constCli freshClient c1Item (some c1Uuid) none).1 =
      .ok true ∧
    specMatchesScope c1Item (some (.str c1Uuid)) none = .ok false := by
  exact ⟨rfl, rfl⟩

/-- Pure first-match selector over a decoded collection list, following the
spec words "search the vault collection list by display name; first match
wins". -/
def specFirstCollection (c : String) : List Json → Option Json
  | [] => none
  | x :: rest =>
    match x with
    | .obj kvs =>
      match objLookup "name" kvs with
      | some n => if Json.beq n (.str c) then objLookup "id" kvs else specFirstCollection c rest
      | none => specFirstCollection c rest
    | _ => specFirstCollection c rest

/-- A decoded collection entry is well formed when it is an object carrying
`name` and `id`. -/
def wfCollEntry (x : Json) : Bool :=
  match x with
  | .obj kvs => (objLookup "name" kvs).isSome && (objLookup "id" kvs).isSome
  | _ => false

theorem firstCollId_eq_spec (c : String) (l : List Json)
    (hwf : ∀ x ∈ l, wfCollEntry x = true) :
    Bitwarden.firstCollId c l = .ok (specFirstCollection c l) := by
  induction l with
  | nil => rfl
  | cons x rest ih =>
    have hx := hwf x (List.mem_cons_self x rest)
    have hrest : ∀ y ∈ rest, wfCollEntry y = true :=
      fun y hy => hwf y (List.mem_cons_of_mem x hy)
    cases x with
    | obj kvs =>
      simp only [wfCollEntry, Bool.and_eq_true, Option.isSome_iff_exists] at hx
      obtain ⟨⟨n, hn⟩, ⟨i, hi⟩⟩ := hx
      simp only [Bitwarden.firstCollId, specFirstCollection, pyGetItem, hn, hi]
      by_cases hb : Json.beq n (.str c) = true
      · simp [hb, hn, hi]
      · simp only [Bool.not_eq_true] at hb
        simp [hb, ih hrest]
    | null => simp [wfCollEntry] at hx
    | bool b => simp [wfCollEntry] at hx
    | num n => simp [wfCollEntry] at hx
    | str s => simp [wfCollEntry] at hx
    | arr xs => simp [wfCollEntry] at hx

/-- C7: a collection reference that is not None, not memoized and not a
syntactically valid UUID is resolved by searching the vault collection list
by display name; the first match is memoized, and when no collection of that
name exists a ScopeNotFoundError naming the requested value is raised. -/
theorem c7_collection_scope_resolution (cli : Cli) (sess c : String) (item : Json)
    (out : String) (cols : List Json)
    (hnu : Bitwarden.is_valid_uuid c = false)
    (hrun : cli.run sess ["list", "collections", "--search", c] = (0, out))
    (hload : cli.jloads (pyStrip out) = some (.arr cols))
    (hwf : ∀ x ∈ cols, wfCollEntry x = true) :
    (specFirstCollection c cols = none →
      Bitwarden.isInCollectionAndOranisation cli ⟨sess, none, none⟩ item none (some c) =
        (.error (.ansible (Bitwarden.noCollectionIdMsg c)), ⟨sess, none, none⟩)) ∧
    (∀ i, specFirstCollection c cols = some i →
      ((Bitwarden.isInCollectionAndOranisation cli ⟨sess, none, none⟩ item none (some c)).2).collectionId =
        some i) := by
  have hloads :
      Bitwarden.runLoads cli sess ["list", "collections", "--search", c] = .ok (.arr cols) := by
    simp [Bitwarden.runLoads, Bitwarden._run, hrun, hload]
  constructor
  · intro hnone
    simp [Bitwarden.isInCollectionAndOranisation, Bitwarden.resolveCollectionId, hnu, hloads,
      pyIter, firstCollId_eq_spec c cols hwf, hnone]
  · intro i hi
    simp [Bitwarden.isInCollectionAndOranisation, Bitwarden.resolveCollectionId, hnu, hloads,
      pyIter, firstCollId_eq_spec c cols hwf, hi, Bitwarden.resolveOrganizationId]

def c7Out : String := "[\x7b\"name\": \"Dev\", \"id\": \"c-1\"\x7d]"

def c7Cli : Cli :=
  { versionOk := true
    run := fun _ args =>
      if args = ["list", "collections", "--search", "Ops"] then (0, c7Out) else (1, "")
    jloads := fun s =>
      if s = c7Out then some (.arr [.obj [("name", .str "Dev"), ("id", .str "c-1")]]) else none }

/-- Witness for C7 at a concrete world: no collection named "Ops" exists, so
resolution raises the error naming "Ops". -/
theorem c7_collection_scope_resolution_witness :
    Bitwarden.isInCollectionAndOranisation c7Cli ⟨"", none, none⟩ Json.null none (some "Ops") =
      (.error (.ansible (Bitwarden.noCollectionIdMsg "Ops")), ⟨"", none, none⟩) := by
  have h := c7_collection_scope_resolution c7Cli "" "Ops" Json.null c7Out
    [.obj [("name", .str "Dev"), ("id", .str "c-1")]]
    (by decide) rfl rfl (by decide)
  exact h.1 rfl

namespace Bitwarden

def fieldNotFoundMsg (field key : String) : String :=
  "no field=\x27" ++ field ++ "\x27 for item=\x27" ++ key ++
    "\x27 in organization and/or collection found"

def scopeMismatchMsg (key : String) : String :=
  "no item=\x27" ++ key ++ "\x27 in organization/collection found"

def itemNotFoundMsg (key : String) : String :=
  "no item=\x27" ++ key ++ "\x27 in organization and/or collection found"

/-- The predicate of the custom-fields filter:
`(\x27name\x27 in oneItem) and oneItem[\x27name\x27] == v`. -/
def fieldsPred (v : String) (one : Json) : Except PyError Bool :=
  match pyContainsKey one "name" with
  | .error e => .error e
  | .ok false => .ok false
  | .ok true =>
    match pyGetItem one "name" with
    | .error e => .error e
    | .ok n => .ok (Json.beq n (.str v))

/-- Strict `list(filter(...))` over the decoded `fields` list. -/
def fieldsFilter (v : String) : List Json → Except PyError (List Json)
  | [] => .ok []
  | x :: rest =>
    match fieldsPred v x with
    | .error e => .error e
    | .ok keep =>
      match fieldsFilter v rest with
      | .error e => .error e
      | .ok r => .ok (if keep then x :: r else r)

/-- Strict `list(map(lambda oneItem: oneItem[\x27value\x27], filtered))`. -/
def projectValues : List Json → Except PyError (List Json)
  | [] => .ok []
  | x :: rest =>
    match pyGetItem x "value" with
    | .error e => .error e
    | .ok y =>
      match projectValues rest with
      | .error e => .error e
      | .ok r => .ok (y :: r)

/-- Strict `list(map(lambda oneItem: oneItem[v], item))`. -/
def projectKey (v : String) : List Json → Except PyError (List Json)
  | [] => .ok []
  | x :: rest =>
    match pyGetItem x v with
    | .error e => .error e
    | .ok y =>
      match projectKey v rest with
      | .error e => .error e
      | .ok r => .ok (y :: r)

/-- The field-path walking loop of `get_entry`: `first` is `splitted[0]`,
which selects the custom-`fields` special case.  A dict containing the
segment is descended into; a list under a `fields` path returns the filtered
value projection immediately; a list of dicts is projected pointwise; a list
whose first element is not a dict is kept unchanged and the loop continues;
anything else raises the field-not-found `AnsibleError`. -/
def navLoop (field key first : String) : List String → Json → Except PyError Json
  | [], item => .ok item
  | v :: rest, item =>
    match item with
    | .obj kvs =>
      match objLookup v kvs with
      | some nx => navLoop field key first rest nx
      | none => .error (.ansible (fieldNotFoundMsg field key))
    | .arr xs =>
      if first = "fields" then
        match fieldsFilter v xs with
        | .error e => .error e
        | .ok filtered =>
          match projectValues filtered with
          | .error e => .error e
          | .ok vals => .ok (.arr vals)
      else
        match xs with
        | [] => .error .indexError
        | x0 :: _ =>
          match x0 with
          | .obj _ =>
            match projectKey v xs with
            | .error e => .error e
            | .ok ys => navLoop field key first rest (.arr ys)
          | _ => navLoop field key first rest item
    | _ => .error (.ansible (fieldNotFoundMsg field key))

/-- The whole field-navigation block of `get_entry`: split the field path on
dots and walk the segments. -/
def navigateField (field key : String) (item : Json) : Except PyError Json :=
  let splitted := pySplit '.' field
  navLoop field key (splitted.headD "") splitted item

end Bitwarden

theorem fieldsFilter_append (v : String) (pre post : List Json)
    (hpre : ∀ f ∈ pre, Bitwarden.fieldsPred v f = .ok false) :
    Bitwarden.fieldsFilter v (pre ++ post) = Bitwarden.fieldsFilter v post := by
  induction pre with
  | nil => rfl
  | cons x rest ih =>
    have hx := hpre x (List.mem_cons_self x rest)
    have hrest : ∀ y ∈ rest, Bitwarden.fieldsPred v y = .ok false :=
      fun y hy => hpre y (List.mem_cons_of_mem x hy)
    have hih : Bitwarden.fieldsFilter v (rest.append post) = Bitwarden.fieldsFilter v post :=
      ih hrest
    simp only [List.cons_append, Bitwarden.fieldsFilter, hx, hih]
    cases Bitwarden.fieldsFilter v post <;> rfl

theorem fieldsFilter_all_false (v : String) (l : List Json)
    (h : ∀ f ∈ l, Bitwarden.fieldsPred v f = .ok false) :
    Bitwarden.fieldsFilter v l = .ok [] := by
  have := fieldsFilter_append v l [] h
  simpa [Bitwarden.fieldsFilter] using this

/-- C5: resolving the field path `fields.X` against an item whose `fields`
list contains exactly one entry named `X` returns the one-element sequence
holding that entry's value, not the bare scalar. -/
theorem c5_fields_singleton (field key x0 : String) (kvs : List (String × Json))
    (pre post : List Json) (e val : Json)
    (hsplit : pySplit '.' field = ["fields", x0])
    (hfields : objLookup "fields" kvs = some (.arr (pre ++ e :: post)))
    (hpre : ∀ f ∈ pre, Bitwarden.fieldsPred x0 f = .ok false)
    (hpost : ∀ f ∈ post, Bitwarden.fieldsPred x0 f = .ok false)
    (he : Bitwarden.fieldsPred x0 e = .ok true)
    (hval : pyGetItem e "value" = .ok val) :
    Bitwarden.navigateField field key (.obj kvs) = .ok (.arr [val]) := by
  have hfilter : Bitwarden.fieldsFilter x0 (pre ++ e :: post) = .ok [e] := by
    rw [fieldsFilter_append x0 pre (e :: post) hpre]
    simp [Bitwarden.fieldsFilter, he, fieldsFilter_all_false x0 post hpost]
  simp [Bitwarden.navigateField, hsplit, Bitwarden.navLoop, hfields, hfilter,
    Bitwarden.projectValues, hval]

/-- Witness for C5: the item has one custom field named `api_key` with value
`XYZ`; resolving `fields.api_key` yields the singleton sequence `["XYZ"]`. -/
theorem c5_fields_singleton_witness :
    Bitwarden.navigateField "fields.api_key" "Google"
      (.obj [("fields", .arr [.obj [("name", .str "api_key"), ("value", .str "XYZ")]])]) =
      .ok (.arr [.str "XYZ"]) := by
  exact c5_fields_singleton "fields.api_key" "Google" "api_key"
    [("fields", .arr [.obj [("name", .str "api_key"), ("value", .str "XYZ")]])]
    [] [] (.obj [("name", .str "api_key"), ("value", .str "XYZ")]) (.str "XYZ")
    rfl rfl (by simp) (by simp) rfl rfl

/-- C10: resolving `fields.X` against an item whose `fields` list has no
entry named `X` returns the empty sequence instead of raising. -/
theorem c10_fields_no_match (field key x0 : String) (kvs : List (String × Json))
    (fs : List Json)
    (hsplit : pySplit '.' field = ["fields", x0])
    (hfields : objLookup "fields" kvs = some (.arr fs))
    (hall : ∀ f ∈ fs, Bitwarden.fieldsPred x0 f = .ok false) :
    Bitwarden.navigateField field key (.obj kvs) = .ok (.arr []) := by
  simp [Bitwarden.navigateField, hsplit, Bitwarden.navLoop, hfields,
    fieldsFilter_all_false x0 fs hall, Bitwarden.projectValues]

/-- Witness for C10: no custom field is named `missing`, so `fields.missing`
resolves to the empty sequence. -/
theorem c10_fields_no_match_witness :
    Bitwarden.navigateField "fields.missing" "Google"
      (.obj [("fields", .arr [.obj [("name", .str "api_key"), ("value", .str "XYZ")]])]) =
      .ok (.arr []) := by
  exact c10_fields_no_match "fields.missing" "Google" "missing"
    [("fields", .arr [.obj [("name", .str "api_key"), ("value", .str "XYZ")]])]
    [.obj [("name", .str "api_key"), ("value", .str "XYZ")]]
    rfl rfl (by simp [Bitwarden.fieldsPred, pyContainsKey, objLookup, pyGetItem, Json.beq])

def c4Item : Json := .obj [("a", .arr [.str "x"])]

/-- Counterexample to C4 as stated: the path `a.b` contains the segment `b`,
absent from the current value `["x"]` and not under a `fields` navigation,
yet navigation returns the partial result `["x"]` and raises nothing — a
list whose first element is not a dict is skipped silently. -/
theorem c4_counterexample :
    Bitwarden.navigateField "a.b" "t" c4Item = .ok (.arr [.str "x"]) ∧
    pySplit '.' "a.b" = ["a", "b"] ∧
    pyContainsKey (.arr [.str "x"]) "b" = .ok false := by
  exact ⟨rfl, rfl, rfl⟩

/-- C4 (amended): when navigation reaches a segment whose current value is
neither a list nor a dict containing that segment, it raises the
FieldNotFoundError naming the field path and the term, with no partial
result. -/
theorem c4_field_not_found (field key first v : String) (rest : List String) (item : Json)
    (hnotobj : ∀ kvs, item = .obj kvs → objLookup v kvs = none)
    (hnotarr : ∀ xs, item ≠ .arr xs) :
    Bitwarden.navLoop field key first (v :: rest) item =
      .error (.ansible (Bitwarden.fieldNotFoundMsg field key)) := by
  cases item with
  | obj kvs => simp [Bitwarden.navLoop, hnotobj kvs rfl]
  | arr xs => exact absurd rfl (hnotarr xs)
  | null => rfl
  | bool b => rfl
  | num n => rfl
  | str s => rfl

/-- Witness for C4 (amended): the segment `b` applied to the scalar `"s"`
raises the field-not-found error. -/
theorem c4_field_not_found_witness :
    Bitwarden.navLoop "q.b" "t" "q" ["b"] (.str "s") =
      .error (.ansible (Bitwarden.fieldNotFoundMsg "q.b" "t")) := by
  exact c4_field_not_found "q.b" "t" "q" "b" [] (.str "s")
    (by intro kvs h; cases h) (by intro xs h; cases h)

namespace Bitwarden

/-- The scanning loop of `__searchForIdWithKeys`: the first decoded item
whose name equals the key and which passes the scope check wins and its id is
returned; with no such item the item-not-found `AnsibleError` is raised.
The scope memo mutates across candidate checks, also when the loop fails
afterwards. -/
def searchLoop (cli : Cli) (key : String) (organization collection : Option String) :
    BwClient → List Json → Except PyError Json × BwClient
  | st, [] => (.error (.ansible (itemNotFoundMsg key)), st)
  | st, d :: rest =>
    match pyGetItem d "name" with
    | .error e => (.error e, st)
    | .ok n =>
      if Json.beq n (.str key) then
        match isInCollectionAndOranisation cli st d organization collection with
        | (.error e, st1) => (.error e, st1)
        | (.ok true, st1) =>
          (match pyGetItem d "id" with
           | .error e => .error e
           | .ok i => .ok i, st1)
        | (.ok false, st1) => searchLoop cli key organization collection st1 rest
      else searchLoop cli key organization collection st rest

/-- Embedding of `Bitwarden.__searchForIdWithKeys`: decode
`list items --search <keys>` and scan the result. -/
def searchForIdWithKeys (cli : Cli) (st : BwClient) (key : String)
    (organization collection : Option String) (keys : List String) :
    Except PyError Json × BwClient :=
  match runLoads cli st.session (["list", "items", "--search"] ++ keys) with
  | .error e => (.error e, st)
  | .ok j =>
    match pyIter j with
    | .error e => (.error e, st)
    | .ok l => searchLoop cli key organization collection st l

/-- Embedding of `Bitwarden.searchForId`: search with the whole term, and
when that attempt raises an `AnsibleError` retry with the whitespace-split
term; other exception kinds propagate. -/
def searchForId (cli : Cli) (st : BwClient) (key : String)
    (organization collection : Option String) : Except PyError Json × BwClient :=
  match searchForIdWithKeys cli st key organization collection [key] with
  | (.ok i, st1) => (.ok i, st1)
  | (.error (.ansible _), st1) =>
    searchForIdWithKeys cli st1 key organization collection (pySplit ' ' key)
  | (.error e, st1) => (.error e, st1)

/-- `Popen` requires every argument to be a string; building the argument
list from a non-string decoded id raises `TypeError`. -/
def asStr (j : Json) : Except PyError String :=
  match j with
  | .str s => .ok s
  | _ => .error .typeError

/-- The tail of `get_entry` once both direct `get` attempts have failed:
`foundId` is the searched id, or the empty string when the search itself
raised.  For a field other than `item` the full item is fetched (by found id
when one exists, else by the original key), checked against the scope and
walked with the field path; for the `item` field the item-not-found error is
raised. -/
def get_entry_fallback (cli : Cli) (st : BwClient) (key field : String)
    (organization collection : Option String) (foundId : Json) :
    Except PyError Json × BwClient :=
  if field ≠ "item" then
    match (if Json.beq foundId (.str "") then
            runLoads cli st.session ["get", "item", key]
          else
            match asStr foundId with
            | .error e => .error e
            | .ok fs => runLoads cli st.session ["get", "item", fs]) with
    | .error e => (.error e, st)
    | .ok item =>
      match isInCollectionAndOranisation cli st item organization collection with
      | (.error e, st2) => (.error e, st2)
      | (.ok false, st2) => (.error (.ansible (scopeMismatchMsg key)), st2)
      | (.ok true, st2) => (navigateField field key item, st2)
  else (.error (.ansible (itemNotFoundMsg key)), st)

/-- Embedding of `Bitwarden.get_entry`, the ordered fallback chain: a direct
`get <field> <key>` whose success returns the raw stripped output at once;
then `searchForId` followed by `get <field> <foundId>`; then the
`get_entry_fallback` tail.  Only `AnsibleError` failures are caught at each
step. -/
def get_entry (cli : Cli) (st : BwClient) (key field : String)
    (organization collection : Option String) : Except PyError Json × BwClient :=
  match _run cli st.session ["get", field, key] with
  | .ok out => (.ok (.str out), st)
  | .error (.ansible _) =>
    match searchForId cli st key organization collection with
    | (.ok fid, st1) =>
      (match asStr fid with
       | .error e => (.error e, st1)
       | .ok fs =>
         match _run cli st1.session ["get", field, fs] with
         | .ok out => (.ok (.str out), st1)
         | .error (.ansible _) =>
           get_entry_fallback cli st1 key field organization collection fid
         | .error e => (.error e, st1))
    | (.error (.ansible _), st1) =>
      get_entry_fallback cli st1 key field organization collection (.str "")
    | (.error e, st1) => (.error e, st1)
  | .error e => (.error e, st)

end Bitwarden

/-- The client state once both scope references have been memoized to the
ids `cId` and `oId`. -/
def resolvedClient (sess : String) (cId oId : Option Json) : BwClient :=
  { session := sess
    collectionId := cId
    organizationId := oId }

/-- The client states reachable while resolving scope references whose
resolved ids are `cId` and `oId`: each memo field is still empty or already
holds its resolved id. -/
def scopeInv (sess : String) (cId oId : Option Json) (st : BwClient) : Prop :=
  st.session = sess ∧
  (st.collectionId = none ∨ st.collectionId = cId) ∧
  (st.organizationId = none ∨ st.organizationId = oId)

theorem scopeInv_resolved (sess : String) (cId oId : Option Json) :
    scopeInv sess cId oId (resolvedClient sess cId oId) :=
  ⟨rfl, Or.inr rfl, Or.inr rfl⟩

/-- In a world where a fresh memo resolves the collection reference to
`cId`, any reachable memo state resolves to the same id: an empty memo by
the hypothesis, a populated one by the cache hit (a populated memo can only
arise for a non-None reference). -/
theorem resolveCollectionId_resolves (cli : Cli) (sess : String)
    (collection : Option String) (cId : Option Json) (st : BwClient)
    (hRC : ∀ st' : BwClient, st'.session = sess → st'.collectionId = none →
      Bitwarden.resolveCollectionId cli st' collection =
        .ok { st' with collectionId := cId })
    (hCnone : collection = none → cId = none)
    (hsess : st.session = sess)
    (hc : st.collectionId = none ∨ st.collectionId = cId) :
    Bitwarden.resolveCollectionId cli st collection =
      .ok { st with collectionId := cId } := by
  rcases hc with hc | hc
  · exact hRC st hsess hc
  · cases cId with
    | none => exact hRC st hsess hc
    | some x =>
      cases collection with
      | none => cases hCnone rfl
      | some c =>
        obtain ⟨s, ci, oi⟩ := st
        have hci : ci = some x := hc
        subst hci
        simp [Bitwarden.resolveCollectionId]

/-- The organization counterpart of `resolveCollectionId_resolves`. -/
theorem resolveOrganizationId_resolves (cli : Cli) (sess : String)
    (organization : Option String) (oId : Option Json) (st : BwClient)
    (hRO : ∀ st' : BwClient, st'.session = sess → st'.organizationId = none →
      Bitwarden.resolveOrganizationId cli st' organization =
        .ok { st' with organizationId := oId })
    (hOnone : organization = none → oId = none)
    (hsess : st.session = sess)
    (ho : st.organizationId = none ∨ st.organizationId = oId) :
    Bitwarden.resolveOrganizationId cli st organization =
      .ok { st with organizationId := oId } := by
  rcases ho with ho | ho
  · exact hRO st hsess ho
  · cases oId with
    | none => exact hRO st hsess ho
    | some x =>
      cases organization with
      | none => cases hOnone rfl
      | some o =>
        obtain ⟨s, ci, oi⟩ := st
        have hoi : oi = some x := ho
        subst hoi
        simp [Bitwarden.resolveOrganizationId]

/-- From any reachable memo state the scope check resolves both references,
evaluates the return expression on the resolved ids and leaves the fully
resolved client behind. -/
theorem scope_resolves (cli : Cli) (sess : String)
    (organization collection : Option String) (cId oId : Option Json)
    (item : Json) (st : BwClient)
    (hRC : ∀ st' : BwClient, st'.session = sess → st'.collectionId = none →
      Bitwarden.resolveCollectionId cli st' collection =
        .ok { st' with collectionId := cId })
    (hCnone : collection = none → cId = none)
    (hRO : ∀ st' : BwClient, st'.session = sess → st'.organizationId = none →
      Bitwarden.resolveOrganizationId cli st' organization =
        .ok { st' with organizationId := oId })
    (hOnone : organization = none → oId = none)
    (hInv : scopeInv sess cId oId st) :
    Bitwarden.isInCollectionAndOranisation cli st item organization collection =
      (Bitwarden.scopeReturn cId oId item, resolvedClient sess cId oId) := by
  obtain ⟨hs, hc, ho⟩ := hInv
  have h1 := resolveCollectionId_resolves cli sess collection cId st hRC hCnone hs hc
  have h2 := resolveOrganizationId_resolves cli sess organization oId
    { st with collectionId := cId } hRO hOnone hs ho
  cases st
  simp_all [Bitwarden.isInCollectionAndOranisation, resolvedClient]

/-! Well-formed decoded vault items and the pure first-match selector the
search loop implements. -/

def isStrOpt : Option Json → Bool
  | some (.str _) => true
  | _ => false

def isArrOpt : Option Json → Bool
  | some (.arr _) => true
  | _ => false

/-- A decoded vault item as the search loop needs it: an object carrying a
`name`, a string `id`, a list `collectionIds` and an `organizationId`. -/
def wfItem (j : Json) : Bool :=
  match j with
  | .obj kvs =>
    (objLookup "name" kvs).isSome && isStrOpt (objLookup "id" kvs) &&
      isArrOpt (objLookup "collectionIds" kvs) && (objLookup "organizationId" kvs).isSome
  | _ => false

def itemName (j : Json) : Json :=
  match j with
  | .obj kvs => (objLookup "name" kvs).getD .null
  | _ => .null

def itemIdStr (j : Json) : String :=
  match j with
  | .obj kvs =>
    match objLookup "id" kvs with
    | some (.str s) => s
    | _ => ""
  | _ => ""

/-- The boolean the plugin scope check computes once both references are
memoized to the ids `cId` and `oId` (total on well-formed items). -/
def scopeMatchBool (cId oId : Option Json) (item : Json) : Bool :=
  match Bitwarden.scopeReturn cId oId item with
  | .ok b => b
  | .error _ => false

/-- First decoded item whose name equals the term and which passes the scope
check, projected to its id — the selection rule the spec states for the
search fallback. -/
def specFirstItem (key : String) (cId oId : Option Json) :
    List Json → Option String
  | [] => none
  | d :: rest =>
    if Json.beq (itemName d) (.str key) && scopeMatchBool cId oId d then
      some (itemIdStr d)
    else specFirstItem key cId oId rest

theorem wfItem_name {j : Json} (h : wfItem j = true) :
    pyGetItem j "name" = .ok (itemName j) := by
  cases j <;> simp_all [wfItem]
  case obj kvs =>
    obtain ⟨⟨⟨h1, h2⟩, h3⟩, h4⟩ := h
    cases hn : objLookup "name" kvs with
    | none => simp [hn] at h1
    | some n => simp [pyGetItem, hn, itemName]

theorem wfItem_id {j : Json} (h : wfItem j = true) :
    pyGetItem j "id" = .ok (.str (itemIdStr j)) := by
  cases j <;> simp_all [wfItem]
  case obj kvs =>
    obtain ⟨⟨⟨h1, h2⟩, h3⟩, h4⟩ := h
    cases hn : objLookup "id" kvs with
    | none => simp [hn, isStrOpt] at h2
    | some n =>
      cases n <;> simp_all [isStrOpt]
      simp [pyGetItem, hn, itemIdStr]

theorem wfItem_scope (cId oId : Option Json) {j : Json}
    (h : wfItem j = true) :
    Bitwarden.scopeReturn cId oId j = .ok (scopeMatchBool cId oId j) := by
  cases j <;> simp_all [wfItem]
  case obj kvs =>
    obtain ⟨⟨⟨h1, h2⟩, h3⟩, h4⟩ := h
    cases cId with
    | none => simp [Bitwarden.scopeReturn, scopeMatchBool]
    | some cid =>
      cases hcl : objLookup "collectionIds" kvs with
      | none => simp [hcl, isArrOpt] at h3
      | some cl =>
        cases cl <;> simp_all [isArrOpt]
        case arr xs =>
          cases oId with
          | none =>
            simp [Bitwarden.scopeReturn, scopeMatchBool, pyGetItem, hcl, pyMem]
            cases (xs.any fun e => Json.beq e cid) <;> simp
          | some oid =>
            cases hor : objLookup "organizationId" kvs with
            | none => simp [hor] at h4
            | some ov =>
              simp [Bitwarden.scopeReturn, scopeMatchBool, pyGetItem, hcl, hor, pyMem]
              cases (xs.any fun e => Json.beq e cid) <;> simp

theorem searchLoop_spec (cli : Cli) (sess key : String)
    (organization collection : Option String) (cId oId : Option Json)
    (hRC : ∀ st' : BwClient, st'.session = sess → st'.collectionId = none →
      Bitwarden.resolveCollectionId cli st' collection =
        .ok { st' with collectionId := cId })
    (hCnone : collection = none → cId = none)
    (hRO : ∀ st' : BwClient, st'.session = sess → st'.organizationId = none →
      Bitwarden.resolveOrganizationId cli st' organization =
        .ok { st' with organizationId := oId })
    (hOnone : organization = none → oId = none) :
    ∀ (l : List Json) (st : BwClient), scopeInv sess cId oId st →
      (∀ d ∈ l, wfItem d = true) →
      ((∀ i, specFirstItem key cId oId l = some i →
          Bitwarden.searchLoop cli key organization collection st l =
            (.ok (.str i), resolvedClient sess cId oId)) ∧
        (specFirstItem key cId oId l = none →
          (Bitwarden.searchLoop cli key organization collection st l).1 =
            .error (.ansible (Bitwarden.itemNotFoundMsg key)) ∧
          scopeInv sess cId oId
            (Bitwarden.searchLoop cli key organization collection st l).2)) := by
  intro l
  induction l with
  | nil =>
    intro st hInv _
    exact ⟨fun i hi => by simp [specFirstItem] at hi, fun _ => ⟨rfl, hInv⟩⟩
  | cons d rest ih =>
    intro st hInv hwf
    have hd := hwf d (List.mem_cons_self d rest)
    have hrest : ∀ y ∈ rest, wfItem y = true := fun y hy => hwf y (List.mem_cons_of_mem d hy)
    have hname := wfItem_name hd
    have hscope := scope_resolves cli sess organization collection cId oId d st
      hRC hCnone hRO hOnone hInv
    have hret := wfItem_scope cId oId hd
    by_cases hb : Json.beq (itemName d) (.str key) = true
    · by_cases hm : scopeMatchBool cId oId d = true
      · constructor
        · intro i hi
          simp only [specFirstItem, hb, hm, Bool.and_self, if_pos] at hi
          simp only [Option.some.injEq] at hi
          subst hi
          simp [Bitwarden.searchLoop, hname, hb, hscope, hret, hm, wfItem_id hd]
        · intro hnone
          simp [specFirstItem, hb, hm] at hnone
      · have hrec := ih (resolvedClient sess cId oId)
          (scopeInv_resolved sess cId oId) hrest
        have hm2 : scopeMatchBool cId oId d = false := by
          simpa using hm
        have hstep : Bitwarden.searchLoop cli key organization collection st (d :: rest) =
            Bitwarden.searchLoop cli key organization collection
              (resolvedClient sess cId oId) rest := by
          simp [Bitwarden.searchLoop, hname, hb, hscope, hret, hm2]
        constructor
        · intro i hi
          rw [hstep]
          exact hrec.1 i (by simpa [specFirstItem, hb, hm2] using hi)
        · intro hnone
          rw [hstep]
          exact hrec.2 (by simpa [specFirstItem, hb, hm2] using hnone)
    · have hrec := ih st hInv hrest
      have hb2 : Json.beq (itemName d) (.str key) = false := by simpa using hb
      have hstep : Bitwarden.searchLoop cli key organization collection st (d :: rest) =
          Bitwarden.searchLoop cli key organization collection st rest := by
        simp [Bitwarden.searchLoop, hname, hb2]
      constructor
      · intro i hi
        rw [hstep]
        exact hrec.1 i (by simpa [specFirstItem, hb2] using hi)
      · intro hnone
        rw [hstep]
        exact hrec.2 (by simpa [specFirstItem, hb2] using hnone)

theorem searchForIdWithKeys_eq_loop (cli : Cli) (sess key : String)
    (organization collection : Option String) (keys : List String)
    (out : String) (l : List Json)
    (hrun : cli.run sess (["list", "items", "--search"] ++ keys) = (0, out))
    (hl : cli.jloads (pyStrip out) = some (.arr l))
    (st : BwClient) (hsess : st.session = sess) :
    Bitwarden.searchForIdWithKeys cli st key organization collection keys =
      Bitwarden.searchLoop cli key organization collection st l := by
  have hrun2 : cli.run sess ("list" :: "items" :: "--search" :: keys) = (0, out) := by
    simpa using hrun
  simp [Bitwarden.searchForIdWithKeys, Bitwarden.runLoads, Bitwarden._run, hsess, hrun2, hl,
    pyIter]

theorem searchForId_spec (cli : Cli) (sess key : String)
    (organization collection : Option String) (cId oId : Option Json)
    (hRC : ∀ st' : BwClient, st'.session = sess → st'.collectionId = none →
      Bitwarden.resolveCollectionId cli st' collection =
        .ok { st' with collectionId := cId })
    (hCnone : collection = none → cId = none)
    (hRO : ∀ st' : BwClient, st'.session = sess → st'.organizationId = none →
      Bitwarden.resolveOrganizationId cli st' organization =
        .ok { st' with organizationId := oId })
    (hOnone : organization = none → oId = none)
    (out1 : String) (l1 : List Json)
    (h1 : cli.run sess (["list", "items", "--search"] ++ [key]) = (0, out1))
    (hl1 : cli.jloads (pyStrip out1) = some (.arr l1))
    (hwf1 : ∀ d ∈ l1, wfItem d = true)
    (st : BwClient) (hInv : scopeInv sess cId oId st) :
    (∀ i, specFirstItem key cId oId l1 = some i →
      Bitwarden.searchForId cli st key organization collection =
        (.ok (.str i), resolvedClient sess cId oId)) ∧
    (specFirstItem key cId oId l1 = none →
      ∀ (out2 : String) (l2 : List Json),
        cli.run sess (["list", "items", "--search"] ++ pySplit ' ' key) = (0, out2) →
        cli.jloads (pyStrip out2) = some (.arr l2) →
        (∀ d ∈ l2, wfItem d = true) →
        ((∀ i, specFirstItem key cId oId l2 = some i →
            Bitwarden.searchForId cli st key organization collection =
              (.ok (.str i), resolvedClient sess cId oId)) ∧
          (specFirstItem key cId oId l2 = none →
            (Bitwarden.searchForId cli st key organization collection).1 =
              .error (.ansible (Bitwarden.itemNotFoundMsg key)) ∧
            scopeInv sess cId oId
              (Bitwarden.searchForId cli st key organization collection).2))) := by
  have hk1 := searchForIdWithKeys_eq_loop cli sess key organization collection [key]
    out1 l1 h1 hl1 st hInv.1
  have hloop1 := searchLoop_spec cli sess key organization collection cId oId
    hRC hCnone hRO hOnone l1 st hInv hwf1
  constructor
  · intro i hi
    simp [Bitwarden.searchForId, hk1, hloop1.1 i hi]
  · intro hnone1 out2 l2 h2 hl2 hwf2
    obtain ⟨herr1, hinv1⟩ := hloop1.2 hnone1
    rcases hp : Bitwarden.searchLoop cli key organization collection st l1 with ⟨r1, st1⟩
    rw [hp] at herr1 hinv1
    simp only at herr1 hinv1
    subst herr1
    have hk2 := searchForIdWithKeys_eq_loop cli sess key organization collection
      (pySplit ' ' key) out2 l2 h2 hl2 st1 hinv1.1
    have hloop2 := searchLoop_spec cli sess key organization collection cId oId
      hRC hCnone hRO hOnone l2 st1 hinv1 hwf2
    have hform : Bitwarden.searchForId cli st key organization collection =
        Bitwarden.searchLoop cli key organization collection st1 l2 := by
      simp only [Bitwarden.searchForId, hk1, hp]
      exact hk2
    constructor
    · intro i hi
      rw [hform]
      exact hloop2.1 i hi
    · intro hnone2
      rw [hform]
      exact hloop2.2 hnone2

theorem run_fail_ansible (cli : Cli) (sess : String) (args : List String) (rc : Int)
    (out : String) (h : cli.run sess args = (rc, out)) (hrc : rc ≠ 0) :
    ∃ m, Bitwarden._run cli sess args = .error (.ansible m) := by
  unfold Bitwarden._run
  rw [h]
  simp only [ne_eq, hrc, not_false_eq_true, if_true]
  split_ifs <;> exact ⟨_, rfl⟩

/-- C3 (amended): for every term, field and scope (whose references resolve
in this world to the memoized ids `cId` and `oId`), entry resolution follows
the ordered fallback chain: first a direct `get <field> <term>` whose
success returns the raw string immediately without any scope filtering; on
failure, a search over vault items using the full term string, taking the
first result whose name exactly equals the term and which matches the
scope; if that finds nothing, the same search repeated with the term split
on whitespace into separate tokens; and if neither pass finds a match, the
search step raises an ItemNotFoundError naming the term and scope, which
aborts entry resolution only when the requested field is `item` — for any
other field the error is caught and resolution falls back to fetching the
full item by the original term, checking its scope and navigating the field
path. -/
theorem c3_entry_resolution_chain (cli : Cli) (sess key field : String)
    (organization collection : Option String) (cId oId : Option Json)
    (hRC : ∀ st' : BwClient, st'.session = sess → st'.collectionId = none →
      Bitwarden.resolveCollectionId cli st' collection =
        .ok { st' with collectionId := cId })
    (hCnone : collection = none → cId = none)
    (hRO : ∀ st' : BwClient, st'.session = sess → st'.organizationId = none →
      Bitwarden.resolveOrganizationId cli st' organization =
        .ok { st' with organizationId := oId })
    (hOnone : organization = none → oId = none) :
    (∀ out, cli.run sess ["get", field, key] = (0, out) →
      Bitwarden.get_entry cli ⟨sess, none, none⟩ key field organization collection =
        (.ok (.str (pyStrip out)), ⟨sess, none, none⟩)) ∧
    (∀ (rc : Int) (dOut out1 : String) (l1 : List Json) (i gOut : String),
      cli.run sess ["get", field, key] = (rc, dOut) → rc ≠ 0 →
      cli.run sess (["list", "items", "--search"] ++ [key]) = (0, out1) →
      cli.jloads (pyStrip out1) = some (.arr l1) →
      (∀ d ∈ l1, wfItem d = true) →
      specFirstItem key cId oId l1 = some i →
      cli.run sess ["get", field, i] = (0, gOut) →
      Bitwarden.get_entry cli ⟨sess, none, none⟩ key field organization collection =
        (.ok (.str (pyStrip gOut)), resolvedClient sess cId oId)) ∧
    (∀ (rc : Int) (dOut out1 : String) (l1 : List Json) (out2 : String) (l2 : List Json)
        (i gOut : String),
      cli.run sess ["get", field, key] = (rc, dOut) → rc ≠ 0 →
      cli.run sess (["list", "items", "--search"] ++ [key]) = (0, out1) →
      cli.jloads (pyStrip out1) = some (.arr l1) →
      (∀ d ∈ l1, wfItem d = true) →
      specFirstItem key cId oId l1 = none →
      cli.run sess (["list", "items", "--search"] ++ pySplit ' ' key) = (0, out2) →
      cli.jloads (pyStrip out2) = some (.arr l2) →
      (∀ d ∈ l2, wfItem d = true) →
      specFirstItem key cId oId l2 = some i →
      cli.run sess ["get", field, i] = (0, gOut) →
      Bitwarden.get_entry cli ⟨sess, none, none⟩ key field organization collection =
        (.ok (.str (pyStrip gOut)), resolvedClient sess cId oId)) ∧
    (∀ (rc : Int) (dOut out1 : String) (l1 : List Json) (out2 : String) (l2 : List Json),
      cli.run sess ["get", field, key] = (rc, dOut) → rc ≠ 0 →
      cli.run sess (["list", "items", "--search"] ++ [key]) = (0, out1) →
      cli.jloads (pyStrip out1) = some (.arr l1) →
      (∀ d ∈ l1, wfItem d = true) →
      specFirstItem key cId oId l1 = none →
      cli.run sess (["list", "items", "--search"] ++ pySplit ' ' key) = (0, out2) →
      cli.jloads (pyStrip out2) = some (.arr l2) →
      (∀ d ∈ l2, wfItem d = true) →
      specFirstItem key cId oId l2 = none →
      field = "item" →
      (Bitwarden.get_entry cli ⟨sess, none, none⟩ key field organization collection).1 =
        .error (.ansible (Bitwarden.itemNotFoundMsg key))) ∧
    (∀ (rc : Int) (dOut out1 : String) (l1 : List Json) (out2 : String) (l2 : List Json)
        (outI : String) (item v : Json),
      cli.run sess ["get", field, key] = (rc, dOut) → rc ≠ 0 →
      cli.run sess (["list", "items", "--search"] ++ [key]) = (0, out1) →
      cli.jloads (pyStrip out1) = some (.arr l1) →
      (∀ d ∈ l1, wfItem d = true) →
      specFirstItem key cId oId l1 = none →
      cli.run sess (["list", "items", "--search"] ++ pySplit ' ' key) = (0, out2) →
      cli.jloads (pyStrip out2) = some (.arr l2) →
      (∀ d ∈ l2, wfItem d = true) →
      specFirstItem key cId oId l2 = none →
      field ≠ "item" →
      cli.run sess ["get", "item", key] = (0, outI) →
      cli.jloads (pyStrip outI) = some item →
      wfItem item = true →
      scopeMatchBool cId oId item = true →
      Bitwarden.navigateField field key item = .ok v →
      (Bitwarden.get_entry cli ⟨sess, none, none⟩ key field organization collection).1 =
        .ok v) := by
  have hInv0 : scopeInv sess cId oId ⟨sess, none, none⟩ :=
    ⟨rfl, Or.inl rfl, Or.inl rfl⟩
  refine ⟨?_, ?_, ?_, ?_, ?_⟩
  · intro out h
    simp [Bitwarden.get_entry, Bitwarden._run, h]
  · intro rc dOut out1 l1 i gOut hdir hrc h1 hl1 hwf1 hspec1 hget
    obtain ⟨m, hm⟩ := run_fail_ansible cli sess ["get", field, key] rc dOut hdir hrc
    have hs := (searchForId_spec cli sess key organization collection cId oId
      hRC hCnone hRO hOnone out1 l1 h1 hl1
      hwf1 ⟨sess, none, none⟩ hInv0).1 i hspec1
    have hget2 : Bitwarden._run cli
        (resolvedClient sess cId oId).session ["get", field, i] =
        .ok (pyStrip gOut) := by
      simp [Bitwarden._run, resolvedClient, hget]
    simp [Bitwarden.get_entry, hm, hs, Bitwarden.asStr, hget2]
  · intro rc dOut out1 l1 out2 l2 i gOut hdir hrc h1 hl1 hwf1 hnone1 h2 hl2 hwf2 hspec2 hget
    obtain ⟨m, hm⟩ := run_fail_ansible cli sess ["get", field, key] rc dOut hdir hrc
    have hs := ((searchForId_spec cli sess key organization collection cId oId
      hRC hCnone hRO hOnone out1 l1 h1 hl1
      hwf1 ⟨sess, none, none⟩ hInv0).2 hnone1 out2 l2 h2 hl2 hwf2).1 i hspec2
    have hget2 : Bitwarden._run cli
        (resolvedClient sess cId oId).session ["get", field, i] =
        .ok (pyStrip gOut) := by
      simp [Bitwarden._run, resolvedClient, hget]
    simp [Bitwarden.get_entry, hm, hs, Bitwarden.asStr, hget2]
  · intro rc dOut out1 l1 out2 l2 hdir hrc h1 hl1 hwf1 hnone1 h2 hl2 hwf2 hnone2 hfield
    obtain ⟨m, hm⟩ := run_fail_ansible cli sess ["get", field, key] rc dOut hdir hrc
    have hs := ((searchForId_spec cli sess key organization collection cId oId
      hRC hCnone hRO hOnone out1 l1 h1 hl1
      hwf1 ⟨sess, none, none⟩ hInv0).2 hnone1 out2 l2 h2 hl2 hwf2).2 hnone2
    rcases hp : Bitwarden.searchForId cli ⟨sess, none, none⟩ key organization collection
      with ⟨r1, st1⟩
    rw [hp] at hs
    simp only at hs
    obtain ⟨herr, hinv⟩ := hs
    subst herr hfield
    simp [Bitwarden.get_entry, hm, hp, Bitwarden.get_entry_fallback]
  · intro rc dOut out1 l1 out2 l2 outI item v hdir hrc h1 hl1 hwf1 hnone1 h2 hl2 hwf2 hnone2
      hfield hIrun hIload hwfI hscope hnav
    obtain ⟨m, hm⟩ := run_fail_ansible cli sess ["get", field, key] rc dOut hdir hrc
    have hs := ((searchForId_spec cli sess key organization collection cId oId
      hRC hCnone hRO hOnone out1 l1 h1 hl1
      hwf1 ⟨sess, none, none⟩ hInv0).2 hnone1 out2 l2 h2 hl2 hwf2).2 hnone2
    rcases hp : Bitwarden.searchForId cli ⟨sess, none, none⟩ key organization collection
      with ⟨r1, st1⟩
    rw [hp] at hs
    simp only at hs
    obtain ⟨herr, hinv⟩ := hs
    subst herr
    have hloads : Bitwarden.runLoads cli st1.session ["get", "item", key] = .ok item := by
      simp [Bitwarden.runLoads, Bitwarden._run, hinv.1, hIrun, hIload]
    have hsc := scope_resolves cli sess organization collection cId oId item st1
      hRC hCnone hRO hOnone hinv
    have hret := wfItem_scope cId oId hwfI
    simp [Bitwarden.get_entry, hm, hp, Bitwarden.get_entry_fallback, hfield, Json.beq,
      hloads, hsc, hret, hscope, hnav]

def c3Out1 : String :=
  "[\x7b\"name\": \"Google\", \"id\": \"id-123\", \"collectionIds\": [\"c-9\"], " ++
    "\"organizationId\": null\x7d]"

def c3Item1 : Json :=
  .obj [("name", .str "Google"), ("id", .str "id-123"),
    ("collectionIds", .arr [.str "c-9"]), ("organizationId", .null)]

def c3CollOut : String := "[\x7b\"name\": \"Ops\", \"id\": \"c-9\"\x7d]"

def c3Cli : Cli :=
  { versionOk := true
    run := fun _ args =>
      if args = ["get", "password", "Google"] then (1, "Not found.")
      else if args = ["list", "collections", "--search", "Ops"] then (0, c3CollOut)
      else if args = ["list", "items", "--search", "Google"] then (0, c3Out1)
      else if args = ["get", "password", "id-123"] then (0, "hunter2\n")
      else (1, "")
    jloads := fun s =>
      if s = c3Out1 then some (.arr [c3Item1])
      else if s = c3CollOut then some (.arr [.obj [("name", .str "Ops"), ("id", .str "c-9")]])
      else none }

/-- Witness for C3 at a concrete world with a display-name collection scope:
the direct get fails, the scope "Ops" resolves by searching the collection
list, the full-term search finds the in-scope item named "Google", and the
get by its id returns the stripped password. -/
theorem c3_entry_resolution_chain_witness :
    Bitwarden.get_entry c3Cli ⟨"", none, none⟩ "Google" "password" none (some "Ops") =
      (.ok (.str "hunter2"), resolvedClient "" (some (.str "c-9")) none) := by
  have hRC : ∀ st' : BwClient, st'.session = "" → st'.collectionId = none →
      Bitwarden.resolveCollectionId c3Cli st' (some "Ops") =
        .ok { st' with collectionId := some (.str "c-9") } := by
    intro st' h1 h2
    obtain ⟨s, ci, oi⟩ := st'
    have hs : s = "" := h1
    have hc : ci = none := h2
    subst hs hc
    rfl
  have hRO : ∀ st' : BwClient, st'.session = "" → st'.organizationId = none →
      Bitwarden.resolveOrganizationId c3Cli st' none =
        .ok { st' with organizationId := none } := by
    intro st' h1 h2
    obtain ⟨s, ci, oi⟩ := st'
    have ho : oi = none := h2
    subst ho
    rfl
  have h := c3_entry_resolution_chain c3Cli "" "Google" "password" none (some "Ops")
    (some (.str "c-9")) none hRC (fun hx => by cases hx) hRO (fun _ => rfl)
  exact h.2.1 1 "Not found." c3Out1 [c3Item1] "id-123" "hunter2\n"
    rfl (by decide) rfl rfl (by decide) rfl rfl

def c3xOut : String :=
  "\x7b\"name\": \"Google\", \"id\": \"id-9\", \"collectionIds\": [], " ++
    "\"organizationId\": null, \"login\": \x7b\"password\": \"hunter2\"\x7d\x7d"

def c3xItem : Json :=
  .obj [("name", .str "Google"), ("id", .str "id-9"), ("collectionIds", .arr []),
    ("organizationId", .null), ("login", .obj [("password", .str "hunter2")])]

def c3xCli : Cli :=
  { versionOk := true
    run := fun _ args =>
      if args = ["get", "login.password", "Google"] then (1, "Not found.")
      else if args = ["list", "items", "--search", "Google"] then (0, "[]")
      else if args = ["get", "item", "Google"] then (0, c3xOut)
      else (1, "")
    jloads := fun s =>
      if s = "[]" then some (.arr [])
      else if s = c3xOut then some c3xItem
      else none }

/-- Counterexample to C3 as stated: both search passes return an empty
result list, yet entry resolution for the field `login.password` completes
with the value instead of raising an item-not-found error — the search
failure is caught and resolution falls back to fetching the full item by the
original term. -/
theorem c3_counterexample :
    (Bitwarden.get_entry c3xCli ⟨"", none, none⟩ "Google" "login.password" none none).1 =
      .ok (.str "hunter2") ∧
    c3xCli.run "" ["list", "items", "--search", "Google"] = (0, "[]") ∧
    c3xCli.jloads "[]" = some (.arr []) := by
  exact ⟨rfl, rfl, rfl⟩

namespace Bitwarden

def ANSIBLE_ERROR_MORE_THAN_ONE_RESULT : String := "More than one result was found."

def ANSIBLE_ERROR_NOT_FOUND : String := "not found"

/-- Python `str(x)` as used by `"--itemid=\x7b\x7d".format(x)` on decoded
values; the repr of decoded containers is not modelled precisely (vault ids
are strings). -/
def pyFormat (j : Json) : String :=
  match j with
  | .str s => s
  | .null => "None"
  | .bool true => "True"
  | .bool false => "False"
  | .num n => toString n
  | .arr _ => "[...]"
  | .obj _ => "\x7b...\x7d"

/-- The `attachmentArray` built before each attachment download. -/
def attachmentArgs (key output filename itemid : String) : List String :=
  ["get", "attachment", key, "--output=" ++ output ++ filename, "--itemid=" ++ itemid]

/-- The final fallback loop of `get_attachments`: scan the item's decoded
`attachments` list for an entry whose `fileName` equals the requested key
and download it by id; falling off the end of the loop returns Python
`None`. -/
def attachmentScan (cli : Cli) (st : BwClient) (key output filename itemidStr : String) :
    List Json → Except PyError Json × BwClient
  | [] => (.ok .null, st)
  | a :: rest =>
    match pyGetItem a "fileName" with
    | .error e => (.error e, st)
    | .ok fn =>
      if Json.beq fn (.str key) then
        match pyGetItem a "id" with
        | .error e => (.error e, st)
        | .ok idj =>
          match _run cli st.session (attachmentArgs (pyFormat idj) output filename itemidStr) with
          | .ok out => (.ok (.str out), st)
          | .error e => (.error e, st)
      else attachmentScan cli st key output filename itemidStr rest

/-- Embedding of `Bitwarden.get_attachments`: direct download; on an
ambiguous or not-found `AnsibleError`, re-resolve the item id by name and
retry; when the retry also fails, the filename fallback runs only when the
FIRST error was the ambiguity one (the code tests `err.message`, not
`err2.message`), and each fall-through path returns Python `None`. -/
def get_attachments (cli : Cli) (st : BwClient) (key itemid output filename : String)
    (organization collection : Option String) : Except PyError Json × BwClient :=
  match _run cli st.session (attachmentArgs key output filename itemid) with
  | .ok out => (.ok (.str out), st)
  | .error (.ansible msg) =>
    if strContains msg ANSIBLE_ERROR_MORE_THAN_ONE_RESULT ||
        strContains msg ANSIBLE_ERROR_NOT_FOUND then
      match searchForId cli st itemid organization collection with
      | (.error e, st1) => (.error e, st1)
      | (.ok newId, st1) =>
        match _run cli st1.session (attachmentArgs key output filename (pyFormat newId)) with
        | .ok out => (.ok (.str out), st1)
        | .error (.ansible _) =>
          if strContains msg ANSIBLE_ERROR_MORE_THAN_ONE_RESULT then
            match asStr newId with
            | .error e => (.error e, st1)
            | .ok newIdStr =>
              match get_entry cli st1 newIdStr "item" organization collection with
              | (.error e, st2) => (.error e, st2)
              | (.ok entry, st2) =>
                match ((match entry with
                      | .str s =>
                        (match cli.jloads s with
                         | some j => .ok j
                         | none => .error PyError.jsonDecode)
                      | _ => .error PyError.typeError) : Except PyError Json) with
                | .error e => (.error e, st2)
                | .ok itemJson =>
                  match pyGetItem itemJson "attachments" with
                  | .error e => (.error e, st2)
                  | .ok attList =>
                    match pyIter attList with
                    | .error e => (.error e, st2)
                    | .ok l => attachmentScan cli st2 key output filename newIdStr l
          else (.ok .null, st1)
        | .error e => (.error e, st1)
    else (.error (.ansible msg), st)
  | .error e => (.error e, st)

end Bitwarden

def c2Out : String :=
  "[\x7b\"name\": \"server\", \"id\": \"id-7\", \"collectionIds\": [], \"organizationId\": null\x7d]"

def c2Item : Json :=
  .obj [("name", .str "server"), ("id", .str "id-7"), ("collectionIds", .arr []),
    ("organizationId", .null)]

def c2Cli : Cli :=
  { versionOk := true
    run := fun _ args =>
      if args = Bitwarden.attachmentArgs "id_rsa" "/tmp/" "id_rsa" "server" then (1, "Not found.")
      else if args = ["list", "items", "--search", "server"] then (0, c2Out)
      else if args = Bitwarden.attachmentArgs "id_rsa" "/tmp/" "id_rsa" "id-7" then
        (1, "Not found.")
      else (1, "")
    jloads := fun s => if s = c2Out then some (.arr [c2Item]) else none }

/-- C2 (code bug): when the direct download fails with a not-found error,
the id re-resolution succeeds and the retry fails again, `get_attachments`
falls off the end of the handler and returns Python `None` — no download
result and no raised error — while the claim requires the last classified
error to be re-raised. -/
theorem c2_attachment_silent_none :
    c2Cli.run "" (Bitwarden.attachmentArgs "id_rsa" "/tmp/" "id_rsa" "server") =
      (1, "Not found.") ∧
    c2Cli.run "" (Bitwarden.attachmentArgs "id_rsa" "/tmp/" "id_rsa" "id-7") =
      (1, "Not found.") ∧
    Bitwarden.get_attachments c2Cli ⟨"", none, none⟩ "id_rsa" "server" "/tmp/" "id_rsa"
      none none = (.ok Json.null, ⟨"", none, none⟩) := by
  exact ⟨rfl, rfl, rfl⟩

namespace Bitwarden

/-- Embedding of `Bitwarden.sync`. -/
def sync (cli : Cli) (st : BwClient) : Except PyError Unit :=
  match _run cli st.session ["sync"] with
  | .error e => .error e
  | .ok _ => .ok ()

/-- Embedding of `Bitwarden.status`: only the JSON decode failure is caught
and rewrapped (the decoder detail of the Python message is elided);
`_run` failures and a missing `status` key propagate. -/
def status (cli : Cli) (st : BwClient) : Except PyError Json :=
  match _run cli st.session ["status"] with
  | .error e => .error e
  | .ok out =>
    match cli.jloads out with
    | none => .error (.ansible "Error decoding Bitwarden status: ")
    | some data => pyGetItem data "status"

/-- Embedding of the `Bitwarden.logged_in` property. -/
def logged_in (cli : Cli) (st : BwClient) : Except PyError Bool :=
  match status cli st with
  | .error e => .error e
  | .ok v => .ok (Json.beq v (.str "unlocked"))

def cmdNotFoundMsg (path : String) : String := "Command not found: " ++ path

def notLoggedInFacadeMsg : String :=
  "Not logged into Bitwarden: please run \x27bw login\x27, or \x27bw unlock\x27 and set " ++
    "the BW_SESSION environment variable first"

end Bitwarden

/-- The `attachments` option: a string or a list of strings. -/
inductive AttachSpec where
  | one (s : String)
  | many (xs : List String)

/-- The recognized keyword options of the lookup facade. -/
structure Kwargs where
  path : Option String
  field : Option String
  organization : Option String
  collection : Option String
  session : Option String
  sync : Bool
  attachments : Option AttachSpec
  output : Option String

/-- The client state after the facade's optional session install: a truthy
`session` option overwrites the (initially empty) session string. -/
def facadeClient (kwargs : Kwargs) : BwClient :=
  match kwargs.session with
  | some s => if s ≠ "" then ⟨s, none, none⟩ else ⟨"", none, none⟩
  | none => ⟨"", none, none⟩

namespace LookupModule

/-- The inner loop over a list-valued `attachments` option: one download per
attachment name, with the output directory normalized to a trailing
separator. -/
def attachmentFan (cli : Cli) (itemid output : String)
    (organization collection : Option String) :
    BwClient → List String → Except PyError (List Json) × BwClient
  | st, [] => (.ok [], st)
  | st, a :: rest =>
    match (if pyEndsWith output "/" then
            Bitwarden.get_attachments cli st a itemid output a organization collection
          else
            Bitwarden.get_attachments cli st a itemid (output ++ "/") a organization
              collection) with
    | (.error e, st1) => (.error e, st1)
    | (.ok v, st1) =>
      match attachmentFan cli itemid output organization collection st1 rest with
      | (.error e, st2) => (.error e, st2)
      | (.ok vs, st2) => (.ok (v :: vs), st2)

/-- The values appended for one term of the facade loop: the attachment
fan-out when the `attachments` option is present, otherwise one `get_entry`
result. -/
def termValues (cli : Cli) (st : BwClient) (kwargs : Kwargs) (field : String)
    (organization collection : Option String) (term : String) :
    Except PyError (List Json) × BwClient :=
  match kwargs.attachments with
  | none =>
    match Bitwarden.get_entry cli st term field organization collection with
    | (.ok v, st1) => (.ok [v], st1)
    | (.error e, st1) => (.error e, st1)
  | some spec =>
    let itemid := term
    let output := (kwargs.output.getD term)
    match spec with
    | .many atts => attachmentFan cli itemid output organization collection st atts
    | .one att =>
      if pyEndsWith output "/" then
        match Bitwarden.get_attachments cli st att itemid output att organization
            collection with
        | (.ok v, st1) => (.ok [v], st1)
        | (.error e, st1) => (.error e, st1)
      else
        match Bitwarden.get_attachments cli st att itemid output "" organization
            collection with
        | (.ok v, st1) => (.ok [v], st1)
        | (.error e, st1) => (.error e, st1)

/-- The facade's loop over the input terms; the first raised error discards
the accumulated values. -/
def runLoop (cli : Cli) (kwargs : Kwargs) (field : String)
    (organization collection : Option String) :
    BwClient → List String → Except PyError (List Json) × BwClient
  | st, [] => (.ok [], st)
  | st, t :: rest =>
    match termValues cli st kwargs field organization collection t with
    | (.error e, st1) => (.error e, st1)
    | (.ok vs, st1) =>
      match runLoop cli kwargs field organization collection st1 rest with
      | (.error e, st2) => (.error e, st2)
      | (.ok rest2, st2) => (.ok (vs ++ rest2), st2)

/-- Embedding of `LookupModule.run`: construct the client (whose constructor
checks `bw --version`), require an unlocked vault, optionally sync (still
without a session), install a truthy session, then process the terms in
order; the caller receives the flat value list or the first raised error. -/
def run (cli : Cli) (terms : List String) (kwargs : Kwargs) :
    Except PyError (List Json) :=
  let path := kwargs.path.getD "bw"
  if !cli.versionOk then .error (.ansible (Bitwarden.cmdNotFoundMsg path))
  else
    let st0 : BwClient := ⟨"", none, none⟩
    match Bitwarden.logged_in cli st0 with
    | .error e => .error e
    | .ok false => .error (.ansible Bitwarden.notLoggedInFacadeMsg)
    | .ok true =>
      match (if kwargs.sync then Bitwarden.sync cli st0 else .ok ()) with
      | .error e => .error e
      | .ok _ =>
        (runLoop cli kwargs (kwargs.field.getD "password") kwargs.organization
          kwargs.collection (facadeClient kwargs) terms).1

end LookupModule

theorem runLoop_all_ok (cli : Cli) (kwargs : Kwargs) (field : String)
    (organization collection : Option String) (stF : BwClient) (bs : String → List Json) :
    ∀ terms : List String,
      (∀ t ∈ terms, LookupModule.termValues cli stF kwargs field organization collection t =
        (.ok (bs t), stF)) →
      LookupModule.runLoop cli kwargs field organization collection stF terms =
        (.ok (terms.map bs).flatten, stF) := by
  intro terms
  induction terms with
  | nil => intro _; rfl
  | cons t rest ih =>
    intro h
    have ht := h t (List.mem_cons_self t rest)
    have hrest := fun p hp => h p (List.mem_cons_of_mem t hp)
    simp [LookupModule.runLoop, ht, ih hrest]

theorem runLoop_abort (cli : Cli) (kwargs : Kwargs) (field : String)
    (organization collection : Option String) (stF : BwClient) (bs : String → List Json) :
    ∀ (pre : List String) (t : String) (post : List String) (e : PyError),
      (∀ p ∈ pre, LookupModule.termValues cli stF kwargs field organization collection p =
        (.ok (bs p), stF)) →
      (LookupModule.termValues cli stF kwargs field organization collection t).1 = .error e →
      (LookupModule.runLoop cli kwargs field organization collection stF
        (pre ++ t :: post)).1 = .error e := by
  intro pre
  induction pre with
  | nil =>
    intro t post e _ hterr
    rcases hp : LookupModule.termValues cli stF kwargs field organization collection t
      with ⟨r, st1⟩
    rw [hp] at hterr
    simp only at hterr
    subst hterr
    simp [LookupModule.runLoop, hp]
  | cons p prest ih =>
    intro t post e hpre hterr
    have hp0 := hpre p (List.mem_cons_self p prest)
    have hprest := fun q hq => hpre q (List.mem_cons_of_mem p hq)
    have htail := ih t post e hprest hterr
    rcases hq : LookupModule.runLoop cli kwargs field organization collection stF
      (prest ++ t :: post) with ⟨r2, st2⟩
    rw [hq] at htail
    simp only at htail
    subst htail
    simp [LookupModule.runLoop, hp0, hq]

theorem attachmentFan_all_ok (cli : Cli) (itemid output : String)
    (organization collection : Option String) (stF : BwClient) (va : String → Json)
    (hout : pyEndsWith output "/" = true) :
    ∀ atts : List String,
      (∀ a ∈ atts, Bitwarden.get_attachments cli stF a itemid output a organization
        collection = (.ok (va a), stF)) →
      LookupModule.attachmentFan cli itemid output organization collection stF atts =
        (.ok (atts.map va), stF) := by
  intro atts
  induction atts with
  | nil => intro _; rfl
  | cons a rest ih =>
    intro h
    have ha := h a (List.mem_cons_self a rest)
    have hrest := fun q hq => h q (List.mem_cons_of_mem a hq)
    simp [LookupModule.attachmentFan, hout, ha, ih hrest]

/-- C8: with the vault unlocked and sync off, the facade produces the
per-term value lists flattened in input order (one value for a plain term,
one per attachment name for a list-valued attachments option), and an error
raised while processing any term aborts the entire batch with no partial
results delivered. -/
theorem c8_facade_batch (cli : Cli) (terms : List String) (kwargs : Kwargs)
    (stOut : String) (stJson : Json) (bs : String → List Json)
    (hv : cli.versionOk = true)
    (hst : cli.run "" ["status"] = (0, stOut))
    (hsd : cli.jloads (pyStrip stOut) = some stJson)
    (hunlocked : pyGetItem stJson "status" = .ok (.str "unlocked"))
    (hsync : kwargs.sync = false) :
    ((∀ t ∈ terms, LookupModule.termValues cli (facadeClient kwargs) kwargs
        (kwargs.field.getD "password") kwargs.organization kwargs.collection t =
        (.ok (bs t), facadeClient kwargs)) →
      LookupModule.run cli terms kwargs = .ok (terms.map bs).flatten) ∧
    (∀ (pre : List String) (t : String) (post : List String) (e : PyError),
      terms = pre ++ t :: post →
      (∀ p ∈ pre, LookupModule.termValues cli (facadeClient kwargs) kwargs
        (kwargs.field.getD "password") kwargs.organization kwargs.collection p =
        (.ok (bs p), facadeClient kwargs)) →
      (LookupModule.termValues cli (facadeClient kwargs) kwargs
        (kwargs.field.getD "password") kwargs.organization kwargs.collection t).1 =
        .error e →
      LookupModule.run cli terms kwargs = .error e) ∧
    (∀ (t : String) (atts : List String) (va : String → Json),
      kwargs.attachments = some (.many atts) →
      pyEndsWith (kwargs.output.getD t) "/" = true →
      (∀ a ∈ atts, Bitwarden.get_attachments cli (facadeClient kwargs) a t
          (kwargs.output.getD t) a kwargs.organization kwargs.collection =
        (.ok (va a), facadeClient kwargs)) →
      LookupModule.termValues cli (facadeClient kwargs) kwargs
        (kwargs.field.getD "password") kwargs.organization kwargs.collection t =
        (.ok (atts.map va), facadeClient kwargs)) := by
  have hpre : LookupModule.run cli terms kwargs =
      (LookupModule.runLoop cli kwargs (kwargs.field.getD "password") kwargs.organization
        kwargs.collection (facadeClient kwargs) terms).1 := by
    simp [LookupModule.run, hv, Bitwarden.logged_in, Bitwarden.status, Bitwarden._run,
      hst, hsd, hunlocked, hsync, Json.beq]
  refine ⟨?_, ?_, ?_⟩
  · intro h
    rw [hpre, runLoop_all_ok cli kwargs (kwargs.field.getD "password") kwargs.organization
      kwargs.collection (facadeClient kwargs) bs terms h]
  · intro pre t post e hterms hok herr
    rw [hpre, hterms]
    exact runLoop_abort cli kwargs (kwargs.field.getD "password") kwargs.organization
      kwargs.collection (facadeClient kwargs) bs pre t post e hok herr
  · intro t atts va hatt hout hall
    simp only [LookupModule.termValues, hatt]
    exact attachmentFan_all_ok cli t (kwargs.output.getD t) kwargs.organization
      kwargs.collection (facadeClient kwargs) va hout atts hall

def c8Status : String := "\x7b\"status\": \"unlocked\"\x7d"

def c8Cli : Cli :=
  { versionOk := true
    run := fun _ args =>
      if args = ["status"] then (0, c8Status)
      else if args = ["get", "password", "alpha"] then (0, "pw-alpha")
      else if args = ["get", "password", "beta"] then (0, "pw-beta")
      else (1, "")
    jloads := fun s =>
      if s = c8Status then some (.obj [("status", .str "unlocked")]) else none }

def c8Kwargs : Kwargs :=
  { path := none, field := none, organization := none, collection := none,
    session := none, sync := false, attachments := none, output := none }

/-- Witness for C8 at a concrete world: two plain terms produce exactly two
results in input order. -/
theorem c8_facade_batch_witness :
    LookupModule.run c8Cli ["alpha", "beta"] c8Kwargs =
      .ok [.str "pw-alpha", .str "pw-beta"] := by
  have h := c8_facade_batch c8Cli ["alpha", "beta"] c8Kwargs c8Status
    (.obj [("status", .str "unlocked")]) (fun t => [Json.str ("pw-" ++ t)])
    rfl rfl rfl rfl rfl
  exact h.1 (by intro t ht; fin_cases ht <;> rfl)

end BitwardenLookup
